import Mathlib

/-!
Verification development for the pdf-chat-langchain repository.

Shallow embedding of the core pipeline:
- `src/vector_store.py` : `VectorStore` (Chroma collection modelled as a list of
  entries in insertion order).
- `src/pdf_processor.py` : `PDFProcessor.extract_text_with_metadata` and
  `TextChunker.create_chunks`.
- `src/chat_engine.py` : `ChatEngine.generate_response`.
- `app.py` : `process_pdf_with_progress` (the batched ingestion path).

Python exceptions are modelled with `Except String`; machine floats carrying
cosine distances are modelled as rationals; tokenized text is modelled as a
list of token identifiers.
-/

/-! ## Vector store (src/vector_store.py) -/

/-- A chunk as handed to the vector store: a dict with keys `page_content` and
`metadata` (the metadata dict holds the source page number). -/
structure VChunk where
  page_content : String
  metadata : Nat
deriving DecidableEq, Repr

/-- One entry of the Chroma collection: id, document text and metadata, kept in
insertion order. -/
structure IndexEntry where
  id : String
  document : String
  metadata : Nat
deriving DecidableEq, Repr

/-- `collection.add(ids=..., documents=..., metadatas=...)`: appends the zipped
triples to the collection. -/
def collection_add (st : List IndexEntry) (ids : List String) (docs : List String)
    (metas : List Nat) : List IndexEntry :=
  st ++ (ids.zip (docs.zip metas)).map fun x => ⟨x.1, x.2.1, x.2.2⟩

/-- The id list `[str(off + j) for j in range(n)]` used for one batch. -/
def batchIds : Nat → Nat → List String
  | _, 0 => []
  | off, n + 1 => toString off :: batchIds (off + 1) n

/-- `collection.count()`, as read through `VectorStore.get_document_count`. -/
def VectorStore.get_document_count (st : List IndexEntry) : Nat :=
  st.length

/-- The batch loop of `VectorStore.add_documents`:
`for i in range(0, len(chunks), batch_size)` with
`batch_ids = [str(i + j) for j in range(len(batch))]`.
The first argument after `bs` is fuel bounding the number of iterations; with
`1 ≤ bs` a fuel of `chunks.length` is always enough (with `bs = 0` the Python
`range` call raises, a case no caller exercises). -/
def addLoop (bs : Nat) : Nat → List IndexEntry → Nat → List VChunk → List IndexEntry
  | _, st, _, [] => st
  | 0, st, _, _ :: _ => st
  | fuel + 1, st, i, c :: cs =>
      let batch := (c :: cs).take bs
      addLoop bs fuel
        (collection_add st (batchIds i batch.length)
          (batch.map (·.page_content)) (batch.map (·.metadata)))
        (i + bs) ((c :: cs).drop bs)

/-- `VectorStore.add_documents(chunks, batch_size)`: first clears every existing
entry (`collection.get()` then `collection.delete(ids=...)`, leaving the empty
collection), then inserts the chunks in sequential batches. -/
def VectorStore.add_documents (st : List IndexEntry) (chunks : List VChunk)
    (batch_size : Nat) : List IndexEntry :=
  let _ := VectorStore.get_document_count st
  addLoop batch_size chunks.length [] 0 chunks

/-- The entries produced by inserting `chunks` with ids counting up from `off`:
the closed form of the batch loops. -/
def entriesFrom : Nat → List VChunk → List IndexEntry
  | _, [] => []
  | off, c :: cs => ⟨toString off, c.page_content, c.metadata⟩ :: entriesFrom (off + 1) cs

theorem entriesFrom_length (cs : List VChunk) : ∀ off, (entriesFrom off cs).length = cs.length := by
  induction cs with
  | nil => intro off; rfl
  | cons c cs ih => intro off; simp [entriesFrom, ih]

theorem entriesFrom_append (l₁ l₂ : List VChunk) :
    ∀ off, entriesFrom off (l₁ ++ l₂) = entriesFrom off l₁ ++ entriesFrom (off + l₁.length) l₂ := by
  induction l₁ with
  | nil => intro off; simp [entriesFrom]
  | cons c cs ih =>
      intro off
      simp only [List.cons_append, entriesFrom, List.length_cons, List.cons.injEq, true_and,
        List.append_eq]
      rw [ih (off + 1)]
      have h : off + 1 + cs.length = off + (cs.length + 1) := by omega
      rw [h]

theorem entriesFrom_ids (cs : List VChunk) :
    ∀ off, (entriesFrom off cs).map (·.id) = batchIds off cs.length := by
  induction cs with
  | nil => intro off; rfl
  | cons c cs ih => intro off; simp [entriesFrom, batchIds, ih]

theorem batchIds_eq_range (n : Nat) :
    ∀ off, batchIds off n = (List.range' off n).map toString := by
  induction n with
  | zero => intro off; rfl
  | succ n ih => intro off; simp [batchIds, List.range'_succ, ih]

theorem batchIds_zero_eq_range (n : Nat) :
    batchIds 0 n = (List.range n).map toString := by
  rw [batchIds_eq_range, List.range_eq_range']

theorem collection_add_batch (batch : List VChunk) :
    ∀ (st : List IndexEntry) (i : Nat),
      collection_add st (batchIds i batch.length)
        (batch.map (·.page_content)) (batch.map (·.metadata)) = st ++ entriesFrom i batch := by
  induction batch with
  | nil => intro st i; simp [collection_add, batchIds, entriesFrom]
  | cons c cs ih =>
      intro st i
      have h := ih [] (i + 1)
      simp only [collection_add, List.nil_append] at h
      simp [collection_add, batchIds, entriesFrom, h]

theorem addLoop_eq (bs : Nat) (hbs : 1 ≤ bs) :
    ∀ (fuel : Nat) (chunks : List VChunk) (st : List IndexEntry) (i : Nat),
      chunks.length ≤ fuel → addLoop bs fuel st i chunks = st ++ entriesFrom i chunks := by
  intro fuel
  induction fuel with
  | zero =>
      intro chunks st i hlen
      have : chunks = [] := List.length_eq_zero.mp (Nat.le_zero.mp hlen)
      subst this
      simp [addLoop, entriesFrom]
  | succ fuel ih =>
      intro chunks st i hlen
      cases chunks with
      | nil => simp [addLoop, entriesFrom]
      | cons c cs =>
          rw [addLoop]
          rw [collection_add_batch]
          rw [ih ((c :: cs).drop bs) _ (i + bs)
            (by
              simp only [List.length_drop, List.length_cons]
              simp only [List.length_cons] at hlen
              omega)]
          rw [List.append_assoc]
          congr 1
          conv_rhs => rw [← List.take_append_drop bs (c :: cs)]
          rw [entriesFrom_append]
          by_cases hle : (c :: cs).length ≤ bs
          · rw [List.drop_eq_nil_of_le hle]
            simp [entriesFrom]
          · have h2 : ((c :: cs).take bs).length = bs := by
              rw [List.length_take]
              omega
            rw [h2]

theorem add_documents_eq (st : List IndexEntry) (chunks : List VChunk) (bs : Nat)
    (hbs : 1 ≤ bs) : VectorStore.add_documents st chunks bs = entriesFrom 0 chunks := by
  unfold VectorStore.add_documents
  rw [addLoop_eq bs hbs chunks.length chunks [] 0 (Nat.le_refl _)]
  simp

/-! ## Batched ingestion path (app.py, process_pdf_with_progress) -/

/-- The `else` arm of app.py's batch loop: for each later batch, read
`existing_count = vector_store.get_document_count()`, build
`batch_ids = [str(existing_count + j) for j in range(len(batch))]` and call
`vector_store.collection.add` directly. The first argument is fuel bounding the
iteration count; `rest.length` is always enough (the step is the fixed
`batch_size = 25`). -/
def appendLoop : Nat → List IndexEntry → List VChunk → List IndexEntry
  | _, st, [] => st
  | 0, st, _ :: _ => st
  | fuel + 1, st, c :: cs =>
      let batch := (c :: cs).take 25
      appendLoop fuel
        (collection_add st (batchIds (VectorStore.get_document_count st) batch.length)
          (batch.map (·.page_content)) (batch.map (·.metadata)))
        ((c :: cs).drop 25)

/-- `process_pdf_with_progress` (app.py, the vector-store part): iterates over
`chunks` in batches of 25; the batch at `i == 0` goes through
`vector_store.add_documents(batch, batch_size=25)` (which clears the store
first), every later batch is appended directly with ids continuing from the
current count. With an empty chunk list the loop body never runs and the store
is left untouched. -/
def process_pdf_with_progress (st : List IndexEntry) (chunks : List VChunk) :
    List IndexEntry :=
  if chunks.isEmpty then st
  else
    appendLoop (chunks.drop 25).length
      (VectorStore.add_documents st (chunks.take 25) 25) (chunks.drop 25)

theorem appendLoop_eq :
    ∀ (fuel : Nat) (chunks : List VChunk) (st : List IndexEntry),
      chunks.length ≤ fuel →
      appendLoop fuel st chunks = st ++ entriesFrom st.length chunks := by
  intro fuel
  induction fuel with
  | zero =>
      intro chunks st hlen
      have h : chunks = [] := List.length_eq_zero.mp (Nat.le_zero.mp hlen)
      subst h
      simp [appendLoop, entriesFrom]
  | succ fuel ih =>
      intro chunks st hlen
      cases chunks with
      | nil => simp [appendLoop, entriesFrom]
      | cons c cs =>
          rw [appendLoop]
          rw [collection_add_batch]
          rw [ih ((c :: cs).drop 25) _
            (by
              simp only [List.length_drop, List.length_cons]
              simp only [List.length_cons] at hlen
              omega)]
          rw [List.append_assoc]
          congr 1
          conv_rhs => rw [← List.take_append_drop 25 (c :: cs)]
          rw [entriesFrom_append]
          simp only [VectorStore.get_document_count, List.length_append, entriesFrom_length]

/-- C1: for every non-empty chunk list, running the replace-all insertion
(`VectorStore.add_documents`) twice with the same chunk list yields
`count() == len(chunks)` after each run; the second run clears all existing
entries before re-inserting, so no entries are duplicated (the second run
reproduces the first run's store exactly) and each entry receives a dense
integer id starting at 0. -/
theorem C1_add_documents_idempotent (st : List IndexEntry) (chunks : List VChunk)
    (bs : Nat) (hne : chunks ≠ []) (hbs : 1 ≤ bs) :
    VectorStore.get_document_count (VectorStore.add_documents st chunks bs)
      = chunks.length ∧
    VectorStore.get_document_count
      (VectorStore.add_documents (VectorStore.add_documents st chunks bs) chunks bs)
      = chunks.length ∧
    VectorStore.add_documents (VectorStore.add_documents st chunks bs) chunks bs
      = VectorStore.add_documents st chunks bs ∧
    (VectorStore.add_documents st chunks bs).map (·.id)
      = (List.range chunks.length).map toString := by
  rw [add_documents_eq st chunks bs hbs,
    add_documents_eq (entriesFrom 0 chunks) chunks bs hbs]
  refine ⟨?_, ?_, rfl, ?_⟩
  · rw [VectorStore.get_document_count, entriesFrom_length]
  · rw [VectorStore.get_document_count, entriesFrom_length]
  · rw [entriesFrom_ids, batchIds_zero_eq_range]

/-- Witness for C1 at a concrete store and chunk list. -/
theorem C1_witness :
    VectorStore.get_document_count
      (VectorStore.add_documents [⟨"9", "stale", 7⟩] [⟨"a", 1⟩, ⟨"b", 2⟩] 50) = 2 ∧
    VectorStore.get_document_count
      (VectorStore.add_documents
        (VectorStore.add_documents [⟨"9", "stale", 7⟩] [⟨"a", 1⟩, ⟨"b", 2⟩] 50)
        [⟨"a", 1⟩, ⟨"b", 2⟩] 50) = 2 ∧
    VectorStore.add_documents
        (VectorStore.add_documents [⟨"9", "stale", 7⟩] [⟨"a", 1⟩, ⟨"b", 2⟩] 50)
        [⟨"a", 1⟩, ⟨"b", 2⟩] 50
      = VectorStore.add_documents [⟨"9", "stale", 7⟩] [⟨"a", 1⟩, ⟨"b", 2⟩] 50 ∧
    (VectorStore.add_documents [⟨"9", "stale", 7⟩] [⟨"a", 1⟩, ⟨"b", 2⟩] 50).map (·.id)
      = (List.range 2).map toString :=
  C1_add_documents_idempotent [⟨"9", "stale", 7⟩] [⟨"a", 1⟩, ⟨"b", 2⟩] 50
    (by decide) (by decide)

/-- C10 as stated is false: on the empty chunk list the batched app.py path
never runs its loop body, so a pre-existing store is left untouched, while a
single `add_documents` call clears it; the two final states differ. -/
theorem C10_counterexample :
    process_pdf_with_progress [⟨"0", "old", 1⟩] []
      ≠ VectorStore.add_documents [⟨"0", "old", 1⟩] [] 50 := by
  decide

/-- C10 (amended): for every non-empty chunk list, the two ingestion code
paths — a single `VectorStore.add_documents` call with the whole list (default
`batch_size = 50`), and app.py's batched path that sends the first batch
through `add_documents` and appends later batches with ids continuing from the
current count — leave the index in the same final state, whatever state each
store starts from, with dense string ids "0".."n-1". -/
theorem C10_batched_path_refines_add_documents (st st' : List IndexEntry)
    (chunks : List VChunk) (hne : chunks ≠ []) :
    process_pdf_with_progress st chunks = VectorStore.add_documents st' chunks 50 ∧
    (process_pdf_with_progress st chunks).map (·.id)
      = (List.range chunks.length).map toString := by
  have hbody : process_pdf_with_progress st chunks = entriesFrom 0 chunks := by
    rw [process_pdf_with_progress, if_neg (by simp [List.isEmpty_iff, hne])]
    rw [add_documents_eq st (chunks.take 25) 25 (by omega)]
    rw [appendLoop_eq (chunks.drop 25).length (chunks.drop 25) _ (Nat.le_refl _)]
    rw [entriesFrom_length]
    conv_rhs => rw [← List.take_append_drop 25 chunks]
    rw [entriesFrom_append, Nat.zero_add]
  constructor
  · rw [hbody, add_documents_eq st' chunks 50 (by omega)]
  · rw [hbody, entriesFrom_ids, batchIds_zero_eq_range]

/-- Witness for the amended C10 at a concrete store pair and chunk list. -/
theorem C10_witness :
    process_pdf_with_progress [⟨"5", "old", 3⟩] [⟨"a", 1⟩]
      = VectorStore.add_documents [] [⟨"a", 1⟩] 50 ∧
    (process_pdf_with_progress [⟨"5", "old", 3⟩] [⟨"a", 1⟩]).map (·.id)
      = (List.range 1).map toString :=
  C10_batched_path_refines_add_documents [⟨"5", "old", 3⟩] [] [⟨"a", 1⟩] (by decide)

/-! ## PDF extraction (src/pdf_processor.py, PDFProcessor) -/

/-- One element of the list returned by `extract_text_with_metadata`: a dict
`{"page_content": ..., "metadata": {"page": i + 1}}`. -/
structure PageRecord where
  page_content : String
  page : Nat
deriving DecidableEq, Repr

/-- The file system and pypdf, seen from `extract_text_with_metadata`: a path
maps either to an open/parse failure (the exception raised by `open` or
`pypdf.PdfReader`) or to the list of per-page outcomes of `page.extract_text()`
(a page may itself raise). -/
abbrev PdfEnv := String → Except String (List (Except String String))

/-- The `for i, page in enumerate(reader.pages)` loop: appends one record per
page with page number `i + 1`; a page whose `extract_text()` raises aborts the
loop (the exception lands in the enclosing `except`, which keeps the records
accumulated so far). -/
def readPages : List (Except String String) → Nat → List PageRecord
  | [], _ => []
  | .ok t :: rest, i => ⟨t, i + 1⟩ :: readPages rest (i + 1)
  | .error _ :: _, _ => []

/-- `PDFProcessor.extract_text_with_metadata(pdf_path)`: reads the PDF inside a
`try` block; any exception is caught, logged, and the accumulated `documents`
list is returned normally. The `Except` codomain records exceptions escaping
the method — no branch produces one. -/
def PDFProcessor.extract_text_with_metadata (env : PdfEnv) (pdf_path : String) :
    Except String (List PageRecord) :=
  match env pdf_path with
  | .error _ => .ok []
  | .ok pages => .ok (readPages pages 0)

/-- A concrete environment whose only document cannot be opened or parsed. -/
def unreadableEnv : PdfEnv := fun _ => .error "EOF marker not found"

/-- C3 as stated is false: on a path whose document cannot be opened or parsed
at all, `extract_text_with_metadata` does not fail with an `ExtractionError`
(no such class exists in the repository); the `except` clause swallows the
exception and the method returns the normal value `[]`. -/
theorem C3_counterexample :
    unreadableEnv "document.pdf" = .error "EOF marker not found" ∧
    PDFProcessor.extract_text_with_metadata unreadableEnv "document.pdf" = .ok [] :=
  ⟨rfl, rfl⟩

/-- C3 (amended): for every path whose document cannot be opened or parsed at
all, the extractor catches the exception, logs it, and returns normally with
the empty list; it raises nothing. -/
theorem C3_unreadable_returns_empty (env : PdfEnv) (path : String) (e : String)
    (h : env path = .error e) :
    PDFProcessor.extract_text_with_metadata env path = .ok [] := by
  rw [PDFProcessor.extract_text_with_metadata, h]

/-- Witness for the amended C3 at a concrete unreadable document. -/
theorem C3_witness :
    PDFProcessor.extract_text_with_metadata unreadableEnv "document.pdf" = .ok [] :=
  C3_unreadable_returns_empty unreadableEnv "document.pdf" "EOF marker not found" rfl

theorem readPages_ok (pages : List (Except String String))
    (hall : ∀ p ∈ pages, p.isOk = true) :
    ∀ i, (readPages pages i).length = pages.length ∧
      (readPages pages i).map (·.page) = List.range' (i + 1) pages.length ∧
      (readPages pages i).map (fun r => (Except.ok r.page_content : Except String String))
        = pages := by
  induction pages with
  | nil => intro i; exact ⟨rfl, rfl, rfl⟩
  | cons p rest ih =>
      intro i
      match p with
      | .error e =>
          have : (Except.error e : Except String String).isOk = true :=
            hall _ (List.mem_cons_self _ _)
          simp [Except.isOk, Except.toBool] at this
      | .ok t =>
          have hrest := ih (fun q hq => hall q (List.mem_cons_of_mem _ hq)) (i + 1)
          refine ⟨?_, ?_, ?_⟩
          · simp [readPages, hrest.1]
          · simp only [readPages, List.map_cons, List.length_cons, List.range'_succ]
            rw [hrest.2.1]
          · simp only [readPages, List.map_cons, hrest.2.2]

/-- C9: for every readable document with N pages (the environment parses it and
every page's `extract_text()` succeeds), `extract_text_with_metadata` returns
exactly N records, in source order, with page numbers 1..N — 1-based, strictly
increasing, no gaps. -/
theorem C9_extract_pages_numbered (env : PdfEnv) (path : String)
    (pages : List (Except String String)) (hok : env path = .ok pages)
    (hall : ∀ p ∈ pages, p.isOk = true) :
    ∃ recs, PDFProcessor.extract_text_with_metadata env path = .ok recs ∧
      recs.length = pages.length ∧
      recs.map (·.page) = List.range' 1 pages.length ∧
      recs.map (fun r => (Except.ok r.page_content : Except String String)) = pages := by
  refine ⟨readPages pages 0, ?_, ?_, ?_, ?_⟩
  · rw [PDFProcessor.extract_text_with_metadata, hok]
  · exact (readPages_ok pages hall 0).1
  · exact (readPages_ok pages hall 0).2.1
  · exact (readPages_ok pages hall 0).2.2

/-- A concrete environment holding one readable two-page document. -/
def twoPageEnv : PdfEnv := fun _ => .ok [.ok "hello", .ok "world"]

/-- Witness for C9 at a concrete readable two-page document. -/
theorem C9_witness :
    ∃ recs, PDFProcessor.extract_text_with_metadata twoPageEnv "doc.pdf" = .ok recs ∧
      recs.length = 2 ∧
      recs.map (·.page) = List.range' 1 2 ∧
      recs.map (fun r => (Except.ok r.page_content : Except String String))
        = [.ok "hello", .ok "world"] :=
  C9_extract_pages_numbered twoPageEnv "doc.pdf" [.ok "hello", .ok "world"] rfl
    (by decide)

/-! ## Chunker (src/pdf_processor.py, TextChunker) -/

/-- A page record as consumed by `TextChunker.create_chunks`, its text modelled
as the sequence of token identifiers produced by the fixed `cl100k_base`
tokenizer (the chunker measures length with
`len(self.tokenizer.encode(text))`). -/
structure TokPage where
  text : List Nat
  page : Nat
deriving DecidableEq, Repr

/-- A chunk produced by `create_chunks`: a piece of one page's token sequence
together with the metadata page number inherited from that page. -/
structure TokChunk where
  text : List Nat
  page : Nat
deriving DecidableEq, Repr

/-- The configuration stored by `TextChunker.__init__`. -/
structure TextChunker where
  chunk_size : Nat
  chunk_overlap : Nat
deriving DecidableEq, Repr

/-- `TextChunker.__init__(chunk_size, chunk_overlap)`: stores the two numbers
and builds the tokenizer; it performs no validation whatsoever, so
construction always returns normally. The `Except` codomain records exceptions
escaping `__init__` — no branch produces one. -/
def TextChunker.init (chunk_size chunk_overlap : Nat) : Except String TextChunker :=
  .ok ⟨chunk_size, chunk_overlap⟩

/-- Modelled from the spec: the recursive splitting done by langchain's
`RecursiveCharacterTextSplitter` is third-party code, not part of this
repository's sources. §4.2 of the spec: split one page's text into pieces
whose token count is at most `chunk_size`, each next piece starting
`chunk_size - chunk_overlap` tokens further so that adjacent pieces share
`chunk_overlap` tokens taken from the tail of the previous piece. The first
argument of the inner loop is fuel; `toks.length` is always enough because
each step drops at least one token when `chunk_overlap < chunk_size`. -/
def splitTokensGo (chunk_size chunk_overlap : Nat) : Nat → List Nat → List (List Nat)
  | 0, toks => [toks]
  | fuel + 1, toks =>
      if toks.length ≤ chunk_size ∨ chunk_size ≤ chunk_overlap then [toks]
      else
        toks.take chunk_size ::
          splitTokensGo chunk_size chunk_overlap fuel (toks.drop (chunk_size - chunk_overlap))

/-- Modelled from the spec: splitting one page's text; a page with no text
yields no chunks. -/
def splitTokens (chunk_size chunk_overlap : Nat) (toks : List Nat) : List (List Nat) :=
  if toks.isEmpty then [] else splitTokensGo chunk_size chunk_overlap toks.length toks

/-- `TextChunker.create_chunks(documents)`: builds the splitter — whose
constructor (langchain's `TextSplitter.__init__`) raises a `ValueError` when
`chunk_overlap > chunk_size`, the only point where the configuration is
checked — then splits each page's text separately, in order, each resulting
chunk carrying that page's metadata. -/
def TextChunker.create_chunks (self : TextChunker) (documents : List TokPage) :
    Except String (List TokChunk) :=
  if self.chunk_size < self.chunk_overlap then
    .error "Got a larger chunk overlap than chunk size, should be smaller."
  else
    .ok (documents.flatMap fun doc =>
      (splitTokens self.chunk_size self.chunk_overlap doc.text).map fun t => ⟨t, doc.page⟩)

/-- C4 as stated is false: with `chunk_size = 100` and `overlap = 200` — a
configuration with `overlap ≥ chunk_size` — `TextChunker.__init__` reports no
configuration error; it returns the constructed chunker normally. -/
theorem C4_counterexample :
    100 ≤ 200 ∧ TextChunker.init 100 200 = .ok ⟨100, 200⟩ :=
  ⟨by omega, rfl⟩

/-- C4 (amended): `TextChunker.__init__` accepts every configuration, including
`overlap ≥ chunk_size`; the configuration error is deferred to the later
`create_chunks` call, where the splitter's constructor raises — and only for
`overlap > chunk_size`, so `overlap == chunk_size` is never reported at all. -/
theorem C4_validation_deferred_to_chunk_time (chunk_size chunk_overlap : Nat) :
    TextChunker.init chunk_size chunk_overlap = .ok ⟨chunk_size, chunk_overlap⟩ ∧
    (chunk_size < chunk_overlap → ∀ documents,
      TextChunker.create_chunks ⟨chunk_size, chunk_overlap⟩ documents
        = .error "Got a larger chunk overlap than chunk size, should be smaller.") ∧
    (∀ documents, TextChunker.create_chunks ⟨chunk_size, chunk_size⟩ documents
        ≠ .error "Got a larger chunk overlap than chunk size, should be smaller.") := by
  refine ⟨rfl, ?_, ?_⟩
  · intro h documents
    rw [TextChunker.create_chunks, if_pos h]
  · intro documents
    rw [TextChunker.create_chunks, if_neg (by simp)]
    intro h
    cases h

/-- Witness for the amended C4 at the concrete configuration (100, 200). -/
theorem C4_witness :
    TextChunker.init 100 200 = .ok ⟨100, 200⟩ ∧
    TextChunker.create_chunks ⟨100, 200⟩ []
      = .error "Got a larger chunk overlap than chunk size, should be smaller." := by
  have h := C4_validation_deferred_to_chunk_time 100 200
  exact ⟨h.1, h.2.1 (by omega) []⟩

theorem splitTokensGo_le (chunk_size chunk_overlap : Nat)
    (hov : chunk_overlap < chunk_size) :
    ∀ (fuel : Nat) (toks : List Nat), toks.length ≤ fuel →
      ∀ t ∈ splitTokensGo chunk_size chunk_overlap fuel toks, t.length ≤ chunk_size := by
  intro fuel
  induction fuel with
  | zero =>
      intro toks hlen t ht
      rw [splitTokensGo] at ht
      simp at ht
      subst ht
      omega
  | succ fuel ih =>
      intro toks hlen t ht
      rw [splitTokensGo] at ht
      by_cases hc : toks.length ≤ chunk_size
      · rw [if_pos (Or.inl hc)] at ht
        simp at ht
        subst ht
        exact hc
      · rw [if_neg (by omega)] at ht
        rcases List.mem_cons.mp ht with h | h
        · subst h
          simp [List.length_take]
        · exact ih (toks.drop (chunk_size - chunk_overlap))
            (by simp only [List.length_drop]; omega) t h

theorem splitTokensGo_infix (chunk_size chunk_overlap : Nat) :
    ∀ (fuel : Nat) (toks : List Nat) (t : List Nat),
      t ∈ splitTokensGo chunk_size chunk_overlap fuel toks → t <:+: toks := by
  intro fuel
  induction fuel with
  | zero =>
      intro toks t ht
      rw [splitTokensGo] at ht
      simp at ht
      subst ht
      exact List.infix_refl _
  | succ fuel ih =>
      intro toks t ht
      rw [splitTokensGo] at ht
      by_cases hc : toks.length ≤ chunk_size ∨ chunk_size ≤ chunk_overlap
      · rw [if_pos hc] at ht
        simp at ht
        subst ht
        exact List.infix_refl _
      · rw [if_neg hc] at ht
        rcases List.mem_cons.mp ht with h | h
        · subst h
          exact (List.take_prefix _ _).isInfix
        · exact (ih _ t h).trans (List.drop_suffix _ _).isInfix

theorem splitTokens_le (chunk_size chunk_overlap : Nat) (hov : chunk_overlap < chunk_size)
    (toks : List Nat) : ∀ t ∈ splitTokens chunk_size chunk_overlap toks,
      t.length ≤ chunk_size := by
  intro t ht
  rw [splitTokens] at ht
  by_cases he : toks.isEmpty
  · rw [if_pos he] at ht
    cases ht
  · rw [if_neg he] at ht
    exact splitTokensGo_le chunk_size chunk_overlap hov toks.length toks (Nat.le_refl _) t ht

theorem splitTokens_infix (chunk_size chunk_overlap : Nat) (toks : List Nat) :
    ∀ t ∈ splitTokens chunk_size chunk_overlap toks, t <:+: toks := by
  intro t ht
  rw [splitTokens] at ht
  by_cases he : toks.isEmpty
  · rw [if_pos he] at ht
    cases ht
  · rw [if_neg he] at ht
    exact splitTokensGo_infix chunk_size chunk_overlap toks.length toks t ht

/-- C7: for every chunker configuration with `overlap < chunk_size` and every
input page list, every chunk produced by `TextChunker.create_chunks` has a
token count at most `chunk_size`. -/
theorem C7_chunk_token_bound (chunk_size chunk_overlap : Nat)
    (hov : chunk_overlap < chunk_size) (documents : List TokPage)
    (chunks : List TokChunk)
    (h : TextChunker.create_chunks ⟨chunk_size, chunk_overlap⟩ documents = .ok chunks) :
    ∀ c ∈ chunks, c.text.length ≤ chunk_size := by
  rw [TextChunker.create_chunks, if_neg (by simp; omega)] at h
  cases h
  intro c hc
  rcases List.mem_flatMap.mp hc with ⟨doc, hdoc, hcm⟩
  rcases List.mem_map.mp hcm with ⟨t, htm, rfl⟩
  exact splitTokens_le chunk_size chunk_overlap hov doc.text t htm

/-- Witness for C7 at the configuration (2, 1) on a one-page document of three
tokens: the produced chunks are `[1, 2]` and `[2, 3]`, each within bound. -/
theorem C7_witness :
    TextChunker.create_chunks ⟨2, 1⟩ [⟨[1, 2, 3], 1⟩]
      = .ok [⟨[1, 2], 1⟩, ⟨[2, 3], 1⟩] ∧
    (⟨[1, 2], 1⟩ : TokChunk).text.length ≤ 2 :=
  ⟨rfl,
    C7_chunk_token_bound 2 1 (by omega) [⟨[1, 2, 3], 1⟩] [⟨[1, 2], 1⟩, ⟨[2, 3], 1⟩]
      rfl ⟨[1, 2], 1⟩ (by decide)⟩

/-- C8: every chunk produced by `TextChunker.create_chunks` carries the page
metadata of exactly the one page record it was cut from and its text is a
contiguous piece of that single page's token sequence (no chunk merges content
of two page records); the page labels of the output are the input pages' labels
in the original inter-page order, one block of labels per page. -/
theorem C8_chunk_page_provenance (chunk_size chunk_overlap : Nat)
    (documents : List TokPage) (chunks : List TokChunk)
    (h : TextChunker.create_chunks ⟨chunk_size, chunk_overlap⟩ documents = .ok chunks) :
    (∀ c ∈ chunks, ∃ doc ∈ documents, c.page = doc.page ∧ c.text <:+: doc.text) ∧
    chunks.map (·.page) = documents.flatMap
      (fun doc => List.replicate (splitTokens chunk_size chunk_overlap doc.text).length
        doc.page) := by
  by_cases hcfg : chunk_size < chunk_overlap
  · rw [TextChunker.create_chunks, if_pos (by simpa using hcfg)] at h
    cases h
  · rw [TextChunker.create_chunks, if_neg (by simpa using hcfg)] at h
    cases h
    constructor
    · intro c hc
      rcases List.mem_flatMap.mp hc with ⟨doc, hdoc, hcm⟩
      rcases List.mem_map.mp hcm with ⟨t, htm, rfl⟩
      exact ⟨doc, hdoc, rfl, splitTokens_infix chunk_size chunk_overlap doc.text t htm⟩
    · rw [List.map_flatMap]
      congr 1
      funext doc
      rw [List.map_map]
      exact List.map_const' _ doc.page

/-- Witness for C8 at the configuration (2, 1) on a one-page document: the
chunk `[2, 3]` stems from the single page labelled 4 and is an infix of its
token sequence. -/
theorem C8_witness :
    (∃ doc ∈ [(⟨[1, 2, 3], 4⟩ : TokPage)],
      (⟨[2, 3], 4⟩ : TokChunk).page = doc.page ∧ [2, 3] <:+: doc.text) ∧
    ([(⟨[1, 2], 4⟩ : TokChunk), ⟨[2, 3], 4⟩].map (·.page)
      = [(⟨[1, 2, 3], 4⟩ : TokPage)].flatMap
        (fun doc => List.replicate (splitTokens 2 1 doc.text).length doc.page)) := by
  have h := C8_chunk_page_provenance 2 1 [⟨[1, 2, 3], 4⟩] [⟨[1, 2], 4⟩, ⟨[2, 3], 4⟩] rfl
  exact ⟨h.1 ⟨[2, 3], 4⟩ (by decide), h.2⟩

/-! ## Chat engine (src/chat_engine.py, ChatEngine) -/

/-- One entry of the `sources` list built in step 7 of `generate_response`:
the page number, and — when a distance is available at the entry's index — the
similarity value `(1 - distance) * 100` (the code renders this number as a
one-decimal percentage string before storing it). -/
structure SourceInfo where
  page : Nat
  similarity : Option ℚ
deriving DecidableEq, Repr

/-- The value returned by `generate_response`:
`{"response": ..., "sources": [...]}`. -/
structure ChatResponse where
  response : String
  sources : List SourceInfo
deriving DecidableEq, Repr

/-- The search result consumed by `generate_response`: the first (and only)
row of each of Chroma's parallel arrays. A metadata entry is `none` when it is
not a dict carrying a `page` key; a distance entry is `none` when the reported
distance is `None`. -/
structure SearchResults where
  documents : List String
  metadatas : List (Option Nat)
  distances : List (Option ℚ)

/-- The fixed fallback answer for an empty retrieval. -/
def no_info_response : String :=
  "Sorry, I couldn\x27t find relevant information to answer your question."

/-- The fixed fallback answer produced by the outer `except` handler. -/
def error_response : String :=
  "Sorry, I encountered an error while processing your request. Please try again."

/-- `metadata.get('page', 'Unknown') if metadata else 'Unknown'`. -/
def pageStr : Option Nat → String
  | some p => toString p
  | none => "Unknown"

/-- Step 3 of `generate_response`: the context block, each retrieved chunk
prefixed with its page number, joined by blank lines
(`"\n\n".join(f"[Source: Page ...]\n..." ...)` over `zip(documents, metadatas)`). -/
def buildContext (documents : List String) (metadatas : List (Option Nat)) : String :=
  String.intercalate "\n\n"
    ((documents.zip metadatas).map fun x => "[Source: Page " ++ pageStr x.2 ++ "]\n" ++ x.1)

/-- The RAG prompt template of `create_prompt_template`, with `{context}` and
`{question}` substituted by `PromptTemplate.format`. -/
def prompt_template (context question : String) : String :=
  "\n        You are a helpful assistant. Answer the following question based on the provided context.\n        If you don\x27t know the answer, just say that you don\x27t know, don\x27t try to make up an answer.\n        \n        Context:\n        "
    ++ context
    ++ "\n        \n        Question: " ++ question ++ "\n        \n        Answer:\n        "

/-- Step 7 of `generate_response`: the sources loop
`for i, metadata in enumerate(metadatas)`, with `i` the running enumerate
counter. An entry is emitted only when the metadata is a dict carrying a
page; its similarity field is filled only when
`i < len(distances) and distances[i] is not None`, and then from that same
index: `(1 - distances[i]) * 100`. -/
def buildSourcesFrom (distances : List (Option ℚ)) : Nat → List (Option Nat) → List SourceInfo
  | _, [] => []
  | i, none :: ms => buildSourcesFrom distances (i + 1) ms
  | i, some p :: ms =>
      ⟨p, match distances[i]? with
          | some (some d) => some ((1 - d) * 100)
          | _ => none⟩ :: buildSourcesFrom distances (i + 1) ms

/-- The whole sources loop, starting from the enumerate counter 0. -/
def buildSources (metadatas : List (Option Nat)) (distances : List (Option ℚ)) :
    List SourceInfo :=
  buildSourcesFrom distances 0 metadatas

/-- `ChatEngine.generate_response(query)`, given the retrieval outcome and the
generative model `llm` (a function from the rendered prompt to the model's
answer or to the exception it raises). The body sits in an outer `try`; the
inner handler around `self.llm.invoke` logs and re-raises, so a model failure
reaches the outer handler, which returns the fixed error fallback. The
`Except` codomain records exceptions escaping the method — no branch produces
one. -/
def ChatEngine.generate_response (search : SearchResults)
    (llm : String → Except String String) (query : String) :
    Except String ChatResponse :=
  if search.documents.isEmpty then
    .ok ⟨no_info_response, []⟩
  else
    match llm (prompt_template (buildContext search.documents search.metadatas) query) with
    | .error _ => .ok ⟨error_response, []⟩
    | .ok response_content =>
        .ok ⟨response_content, buildSources search.metadatas search.distances⟩

/-- C2 as stated is false: a retrieval carrying the legitimate cosine distance
`3/2` yields a source entry whose similarity value `(1 - 3/2) * 100 = -50`
lies outside `[0, 100]` (and the code stores it as a formatted percentage
string, not a float). -/
theorem C2_counterexample :
    ChatEngine.generate_response ⟨["some text"], [some 3], [some (3 / 2)]⟩
        (fun _ => .ok "answer") "q"
      = .ok ⟨"answer", [⟨3, some ((1 - 3 / 2) * 100)⟩]⟩ ∧
    (1 - (3 : ℚ) / 2) * 100 < 0 :=
  ⟨rfl, by norm_num⟩

theorem buildSourcesFrom_spec (ds : List (Option ℚ)) :
    ∀ (ms : List (Option Nat)) (i : Nat) (s : SourceInfo),
      s ∈ buildSourcesFrom ds i ms → ∀ v, s.similarity = some v →
      ∃ (j : Nat) (d : ℚ), ms[j]? = some (some s.page) ∧ ds[i + j]? = some (some d) ∧
        v = (1 - d) * 100 := by
  intro ms
  induction ms with
  | nil => intro i s hs; cases hs
  | cons m ms ih =>
      intro i s hs v hv
      match m with
      | none =>
          rw [buildSourcesFrom] at hs
          rcases ih (i + 1) s hs v hv with ⟨j, d, hm, hd, hveq⟩
          refine ⟨j + 1, d, by simpa using hm, ?_, hveq⟩
          have harith : i + (j + 1) = i + 1 + j := by omega
          rw [harith]
          exact hd
      | some p =>
          rw [buildSourcesFrom] at hs
          rcases List.mem_cons.mp hs with h1 | h1
          · subst h1
            cases hdi : ds[i]? with
            | none =>
                rw [hdi] at hv
                simp at hv
            | some o =>
                cases o with
                | none =>
                    rw [hdi] at hv
                    simp at hv
                | some d =>
                    rw [hdi] at hv
                    simp at hv
                    refine ⟨0, d, by simp, by simpa using hdi, hv.symm⟩
          · rcases ih (i + 1) s h1 v hv with ⟨j, d, hm, hd, hveq⟩
            refine ⟨j + 1, d, by simpa using hm, ?_, hveq⟩
            have harith : i + (j + 1) = i + 1 + j := by omega
            rw [harith]
            exact hd

/-- C2 (amended): every source entry of an answer that carries a similarity
value carries exactly `(1 - d) * 100` where `d` is that entry's own reported
distance — the distance stored at the same enumerate index as the metadata
that produced the entry (the code renders the number as a one-decimal
percentage string); the value is negative whenever `d > 1`, and for a cosine
distance `d ∈ [0, 2]` it lies in `[-100, 100]`, not `[0, 100]`. -/
theorem C2_similarity_formula (search : SearchResults)
    (llm : String → Except String String) (query : String) (resp : ChatResponse)
    (h : ChatEngine.generate_response search llm query = .ok resp) :
    ∀ s ∈ resp.sources, ∀ v, s.similarity = some v →
      ∃ (j : Nat) (d : ℚ), search.metadatas[j]? = some (some s.page) ∧
        search.distances[j]? = some (some d) ∧
        v = (1 - d) * 100 ∧
        (1 < d → v < 0) ∧
        (0 ≤ d → d ≤ 2 → -100 ≤ v ∧ v ≤ 100) := by
  intro s hs v hv
  have hsrc : resp.sources = [] ∨
      resp.sources = buildSources search.metadatas search.distances := by
    rw [ChatEngine.generate_response] at h
    by_cases he : search.documents.isEmpty
    · rw [if_pos he] at h
      cases h
      exact Or.inl rfl
    · rw [if_neg he] at h
      cases hl : llm (prompt_template (buildContext search.documents search.metadatas) query) with
      | error e => rw [hl] at h; cases h; exact Or.inl rfl
      | ok content => rw [hl] at h; cases h; exact Or.inr rfl
  rcases hsrc with hsrc | hsrc
  · rw [hsrc] at hs; cases hs
  · rw [hsrc] at hs
    rcases buildSourcesFrom_spec search.distances search.metadatas 0 s hs v hv
      with ⟨j, d, hm, hd, hveq⟩
    refine ⟨j, d, hm, by simpa using hd, hveq, ?_, ?_⟩
    · intro h1
      rw [hveq]
      nlinarith
    · intro h0 h2
      constructor <;> nlinarith [hveq]

/-- Witness for the amended C2: on a retrieval whose single metadata (page 12)
sits at the same index 0 as its reported distance 1/2, the answer's single
source carries similarity `(1 - 1/2) * 100`, paired through that shared index
and within the `[-100, 100]` bound. -/
theorem C2_witness :
    ∃ (j : Nat) (d : ℚ), ([some 12] : List (Option Nat))[j]? = some (some 12) ∧
      ([some ((1 : ℚ) / 2)] : List (Option ℚ))[j]? = some (some d) ∧
      (1 - (1 : ℚ) / 2) * 100 = (1 - d) * 100 ∧
      (1 < d → (1 - (1 : ℚ) / 2) * 100 < 0) ∧
      (0 ≤ d → d ≤ 2 →
        -100 ≤ (1 - (1 : ℚ) / 2) * 100 ∧ (1 - (1 : ℚ) / 2) * 100 ≤ 100) :=
  C2_similarity_formula ⟨["text"], [some 12], [some (1 / 2)]⟩ (fun _ => .ok "a") "q"
    ⟨"a", [⟨12, some ((1 - 1 / 2) * 100)⟩]⟩ rfl ⟨12, some ((1 - 1 / 2) * 100)⟩
    (by simp) ((1 - 1 / 2) * 100) rfl

/-- C5: `generate_response` never propagates an exception to its caller — every
run returns a normal value — and when the generative-model invocation fails,
the returned value is the fixed error fallback with an empty sources list. -/
theorem C5_llm_failure_recovered (search : SearchResults)
    (llm : String → Except String String) (query : String) :
    (∃ r, ChatEngine.generate_response search llm query = .ok r) ∧
    (∀ e, search.documents.isEmpty = false →
      llm (prompt_template (buildContext search.documents search.metadatas) query)
        = .error e →
      ChatEngine.generate_response search llm query = .ok ⟨error_response, []⟩) := by
  constructor
  · rw [ChatEngine.generate_response]
    by_cases he : search.documents.isEmpty
    · rw [if_pos he]
      exact ⟨_, rfl⟩
    · rw [if_neg he]
      cases llm (prompt_template (buildContext search.documents search.metadatas) query) with
      | error e => exact ⟨_, rfl⟩
      | ok c => exact ⟨_, rfl⟩
  · intro e he hl
    rw [ChatEngine.generate_response, if_neg (by rw [he]; exact Bool.false_ne_true), hl]

/-- Witness for C5: a concrete non-empty retrieval with a model that raises. -/
theorem C5_witness :
    ChatEngine.generate_response ⟨["text"], [some 1], [some 0]⟩
        (fun _ => .error "quota exceeded") "q"
      = .ok ⟨error_response, []⟩ :=
  (C5_llm_failure_recovered ⟨["text"], [some 1], [some 0]⟩
    (fun _ => .error "quota exceeded") "q").2 "quota exceeded" rfl rfl

/-- C6: on a retrieval that returns no chunks, `generate_response` returns the
fixed fallback text with an empty sources list, for every generative model —
the result does not depend on `llm`, so the model is not invoked on this
path. -/
theorem C6_empty_retrieval_fallback (metadatas : List (Option Nat))
    (distances : List (Option ℚ)) (llm : String → Except String String)
    (query : String) :
    ChatEngine.generate_response ⟨[], metadatas, distances⟩ llm query
      = .ok ⟨no_info_response, []⟩ :=
  rfl
